import Mathlib

/-!
Verification of the stackdriver-tools core pipeline (telemetry sink,
app-info cache, log sink) against its natural-language specification.

Go string-keyed maps are modelled as association lists with
lookup / insert / erase operations; a map value is only ever observed
through `aLookup`, so any association list with the right lookup
semantics is a faithful model.  Wall-clock times are modelled as
integer seconds, and external collaborators (the CF metadata client,
the JSON codec, the metric backend) are modelled as explicit inputs.
-/

namespace StackdriverNozzle

/-- Lookup in an association-list map (Go `m[k]` with presence flag). -/
def aLookup {α : Type} : List (String × α) → String → Option α
  | [], _ => none
  | (a, b) :: t, k => if a = k then some b else aLookup t k

/-- Remove every binding of a key (Go `delete(m, k)`). -/
def aErase {α : Type} : List (String × α) → String → List (String × α)
  | [], _ => []
  | (a, b) :: t, k => if a = k then aErase t k else (a, b) :: aErase t k

/-- Go map assignment `m[k] = v`: the new binding shadows any previous one. -/
def aInsert {α : Type} (m : List (String × α)) (k : String) (v : α) :
    List (String × α) :=
  (k, v) :: aErase m k

/-- Left-biased choice on options, used to state lookup laws. -/
def oor {α : Type} : Option α → Option α → Option α
  | some v, _ => some v
  | none, y => y

/-- Go `for k, v := range src { dst[k] = v }`: fold every binding of
`src` into `dst`. -/
def aUpdate {α : Type} (dst src : List (String × α)) : List (String × α) :=
  src.foldl (fun d p => aInsert d p.1 p.2) dst

/-!
## Telemetry sink (`stackdriver/telemetry_sink.go`)

`telemetry.Counter` carries an int64 value and a fixed label map;
`telemetry.CounterMap` maps entry keys to values that may or may not be
counters.  The `expvar.KeyValue` values handed to `Report`/`Init` hold an
open interface; we model the shapes the sink dispatches on as a closed
variant, with a catch-all for anything else.
-/

structure Counter where
  labels : List (String × String)
  value : Int
deriving DecidableEq

inductive EntryVal where
  | counter (c : Counter)
  | otherVal
deriving DecidableEq

/-- One `expvar.KeyValue` produced by `CounterMap.Do`. -/
structure MapEntry where
  key : String
  value : EntryVal
deriving DecidableEq

inductive VarVal where
  | counter (c : Counter)
  | counterMap (labelKeys : List String) (entries : List MapEntry)
  | otherVar
deriving DecidableEq

/-- One `expvar.KeyValue` of a report / registration snapshot. -/
structure ReportEntry where
  key : String
  value : VarVal
deriving DecidableEq

structure Interval where
  startTime : Int
  endTime : Int
deriving DecidableEq

/-- A single `monitoring.TimeSeries` as built by `timeSeriesInt`: kind
CUMULATIVE and value type INT64 are constants in the source and carry no
information, so only the varying fields are kept. -/
structure TimeSeries where
  metricType : String
  labels : List (String × String)
  interval : Interval
  value : Int
deriving DecidableEq

def timeSeriesInt (metricType : String) (interval : Interval)
    (labels : List (String × String)) (value : Int) : TimeSeries :=
  { metricType := metricType, labels := labels, interval := interval, value := value }

/-- `merge(a, b)` from the source: a fresh map receives all of `b`'s
bindings and then all of `a`'s bindings, so on a key collision the
binding coming from `a` is the one that survives. -/
def merge (a b : List (String × String)) : List (String × String) :=
  aUpdate (aUpdate [] b) a

def errUnknownValue : String := "telemetrySink.timeSeries unknown value type"

/-- `telemetrySink.timeSeries`: returns the emitted points together with
the error-log lines produced (the source logs through `ts.logger`). -/
def timeSeries (globalLabels : List (String × String)) (metricType : String)
    (interval : Interval) (val : ReportEntry) : List TimeSeries × List String :=
  match val.value with
  | .counter c => ([timeSeriesInt metricType interval globalLabels c.value], [])
  | .counterMap _ entries =>
      (entries.foldl (fun series e =>
        match e.value with
        | .counter c =>
            series ++ [timeSeriesInt metricType interval (merge globalLabels c.labels) c.value]
        | .otherVal => series) [], [])
  | .otherVar => ([], [errUnknownValue])

def maxTimeSeries : Nat := 200

def metricDescriptorType (key : String) : String :=
  "custom.googleapis.com/" ++ key

def metricDescriptorName (projectPath key : String) : String :=
  projectPath ++ "/metricDescriptors/" ++ metricDescriptorType key

/-- The fields of `telemetrySink` that the registration / reporting paths
read. -/
structure SinkCfg where
  projectPath : String
  labels : List (String × String)

/-- Loop body of `telemetrySink.Report` for one snapshot entry: append the
entry's points to the open request and submit it exactly when its length
equals `maxTimeSeries`.  The accumulator is (submitted batches, open
request, error-log lines). -/
def reportStep (cfg : SinkCfg) (interval : Interval)
    (acc : List (List TimeSeries) × List TimeSeries × List String)
    (data : ReportEntry) :
    List (List TimeSeries) × List TimeSeries × List String :=
  let pts := timeSeries cfg.labels (metricDescriptorType data.key) interval data
  let req := acc.2.1 ++ pts.1
  let logs := acc.2.2 ++ pts.2
  if req.length = maxTimeSeries then (acc.1 ++ [req], ([] : List TimeSeries), logs)
  else (acc.1, req, logs)

/-- `telemetrySink.Report`: returns the list of batch requests handed to
`client.Post` (every batch is attempted regardless of earlier `Post`
failures, so the submitted sequence does not depend on `Post` results)
together with the error-log lines from `timeSeries`. -/
def Report (cfg : SinkCfg) (interval : Interval) (report : List ReportEntry) :
    List (List TimeSeries) × List String :=
  let out := report.foldl (reportStep cfg interval) ([], [], [])
  (if out.2.1.length ≠ 0 then out.1 ++ [out.2.1] else out.1, out.2.2)

/-- A `metric.MetricDescriptor` as built by `telemetrySink.Init`; kind and
value type are constants in the source. -/
structure MetricDescriptor where
  name : String
  displayName : String
  typ : String
  labelKeys : List String
deriving DecidableEq

/-- Label schema built for one series: one key per global sink label plus,
for a `CounterMap`, one key per declared label dimension. -/
def descriptorLabels (cfg : SinkCfg) (v : VarVal) : List String :=
  cfg.labels.map Prod.fst ++
    (match v with
     | .counterMap ks _ => ks
     | _ => [])

/-- Loop body of `telemetrySink.Init` for one registered series; the
`registered` name set is computed once, before the loop. -/
def initStep (cfg : SinkCfg) (registered : List String)
    (acc : List MetricDescriptor × List MetricDescriptor) (series : ReportEntry) :
    List MetricDescriptor × List MetricDescriptor :=
  let name := metricDescriptorName cfg.projectPath series.key
  if registered.contains name then acc
  else
    let d : MetricDescriptor :=
      { name := name, displayName := series.key, typ := metricDescriptorType series.key,
        labelKeys := descriptorLabels cfg series.value }
    (acc.1 ++ [d], acc.2 ++ [d])

/-- `telemetrySink.Init`: `existing` is what `ListMetricDescriptors`
returns (the descriptors already created for this namespace); the result
is the backend descriptor state after the call paired with the
`CreateMetricDescriptor` requests the call issued. -/
def Init (cfg : SinkCfg) (existing : List MetricDescriptor)
    (registeredSeries : List ReportEntry) :
    List MetricDescriptor × List MetricDescriptor :=
  let registered := existing.map (fun d => d.name)
  registeredSeries.foldl (initStep cfg registered) (existing, [])

/-!
## App-info repository (`cloudfoundry/app_info_repository.go`)

Wall-clock time is modelled in integer seconds (`now`), so
`time.Since(lastQueried).Seconds() < float64(period)` becomes
`now - lastQueried < period`.  The CF client is modelled as the lookup
function `String → Option CFApp` (`AppByGuid` succeeding or failing).
Each operation returns the result paired with the cache map after the
call.
-/

structure AppInfo where
  appName : String
  spaceGUID : String
  spaceName : String
  orgGUID : String
  orgName : String
  lastQueried : Int
deriving DecidableEq

/-- The Go zero value of `AppInfo`. -/
def AppInfo.zero : AppInfo :=
  { appName := "", spaceGUID := "", spaceName := "", orgGUID := "", orgName := "",
    lastQueried := 0 }

/-- The fields of a successful `AppByGuid` response that the repository
reads. -/
structure CFApp where
  name : String
  spaceGuid : String
  spaceName : String
  orgGuid : String
  orgName : String
deriving DecidableEq

def buildAppInfo (app : CFApp) (now : Int) : AppInfo :=
  { appName := app.name, spaceGUID := app.spaceGuid, spaceName := app.spaceName,
    orgGUID := app.orgGuid, orgName := app.orgName, lastQueried := now }

/-- `appInfoRepository.QueryCfForMetadata`, embedded exactly as written:
the function declares `var appInfo AppInfo`, and inside the success
branch a short variable declaration `appInfo := AppInfo{...}` SHADOWS the
outer variable, so the populated struct only reaches the cache while the
function returns the zero value in both branches. -/
def QueryCfForMetadata (lookup : String → Option CFApp) (now : Int)
    (cache : List (String × AppInfo)) (guid : String) :
    AppInfo × List (String × AppInfo) :=
  match lookup guid with
  | some app => (AppInfo.zero, aInsert cache guid (buildAppInfo app now))
  | none => (AppInfo.zero, cache)

/-- `appInfoRepository.GetAppInfo` with `appMetadataCachePeriod` as the
freshness window. -/
def GetAppInfo (lookup : String → Option CFApp) (now : Int)
    (appMetadataCachePeriod : Int) (cache : List (String × AppInfo))
    (guid : String) : AppInfo × List (String × AppInfo) :=
  if appMetadataCachePeriod ≠ 0 then
    match aLookup cache guid with
    | some appInfo =>
        if appMetadataCachePeriod > 0 then
          if now - appInfo.lastQueried < appMetadataCachePeriod then (appInfo, cache)
          else QueryCfForMetadata lookup now cache guid
        else (appInfo, cache)
    | none => QueryCfForMetadata lookup now cache guid
  else QueryCfForMetadata lookup now cache guid

/-!
## Log sink (`nozzle/log_sink.go`)

JSON documents are modelled by `JsonVal`; a decoded JSON object is an
association list.  The outcomes of the `encoding/json` round trips that
`parseEnvelope` performs (`structToMap(envelope)`, `structToMap` of the
variant sub-message, `json.Unmarshal` of a log message's raw bytes) are
external-library results and enter the model as the `JsonCodec` oracle:
`none` models a failed marshal/unmarshal, `some m` a successful one.
-/

inductive JsonVal where
  | str (s : String)
  | num (n : Int)
  | boolean (b : Bool)
  | null
  | arr (l : List JsonVal)
  | obj (m : List (String × JsonVal))

inductive MessageType where
  | out
  | err
deriving DecidableEq

def MessageType.toStr : MessageType → String
  | .out => "OUT"
  | .err => "ERR"

inductive Severity where
  | default
  | error
deriving DecidableEq

/-- `parseSeverity`: `ERR` maps to ERROR, anything else to DEFAULT. -/
def parseSeverity : MessageType → Severity
  | .err => .error
  | .out => .default

inductive EnvVariant where
  | logMessage (message : String) (messageType : MessageType)
  | errorEv (message : String)
  | httpStartStop (method : String) (peerType : String) (requestId : String)
  | otherEv (tag : String)

/-- `Envelope.GetEventType().String()`. -/
def eventTypeString : EnvVariant → String
  | .logMessage _ _ => "LogMessage"
  | .errorEv _ => "Error"
  | .httpStartStop _ _ _ => "HttpStartStop"
  | .otherEv tag => tag

structure Envelope where
  variant : EnvVariant
  timestamp : Int

/-- Results of the `encoding/json` calls made while translating one
envelope. -/
structure JsonCodec where
  envelopeDump : Option (List (String × JsonVal))
  subDump : Option (List (String × JsonVal))
  rawParse : Option (List (String × JsonVal))

/-- `logSink.parseMessage`: newline-token substitution. -/
def parseMessage (newlineToken : String) (rawMessage : String) : String :=
  if newlineToken ≠ "" then rawMessage.replace newlineToken "\n" else rawMessage

structure LogRecord where
  payload : List (String × JsonVal)
  labels : List (String × String)
  severity : Severity

/-- `logSink.parseEnvelope`.  When `structToMap(envelope)` fails the Go
code logs the error and falls through with `payload == nil`; the very
next statement `payload["eventType"] = ...` is an assignment to an entry
of a nil map, which panics — modelled as the `.error` outcome. -/
def parseEnvelope (codec : JsonCodec) (newlineToken : String) (e : Envelope)
    (labels : List (String × String)) : Except String LogRecord :=
  match codec.envelopeDump with
  | none => .error "assignment to entry in nil map"
  | some p0 =>
    let payload := aInsert p0 "eventType" (.str (eventTypeString e.variant))
    let payload :=
      if e.timestamp ≠ 0 then aInsert payload "timestamp" (.num e.timestamp)
      else payload
    let reshaped : List (String × JsonVal) × Severity :=
      match e.variant with
      | .logMessage rawMessage messageType =>
        match codec.subDump with
        | none => (payload, .default)
        | some logMessageMap =>
          let message := parseMessage newlineToken rawMessage
          let parsed : String × List (String × JsonVal) :=
            match codec.rawParse with
            | some js =>
              let extracted : String × List (String × JsonVal) :=
                match aLookup js "msg" with
                | some (.str s) => (s, aErase js "msg")
                | _ => (message, js)
              (extracted.1, aUpdate logMessageMap extracted.2)
            | none => (message, logMessageMap)
          let logMessageMap := aInsert parsed.2 "message_type" (.str messageType.toStr)
          let payload := aInsert payload "message" (.str parsed.1)
          let logMessageMap := aErase logMessageMap "message"
          (aInsert payload "logMessage" (.obj logMessageMap), parseSeverity messageType)
      | .errorEv errorMessage =>
          (aInsert payload "message" (.str errorMessage), .error)
      | .httpStartStop method peerType requestId =>
        match codec.subDump with
        | none => (payload, .default)
        | some httpStartStopMap =>
          let httpStartStopMap := aInsert httpStartStopMap "method" (.str method)
          let httpStartStopMap := aInsert httpStartStopMap "peerType" (.str peerType)
          let httpStartStopMap := aInsert httpStartStopMap "requestId" (.str requestId)
          (aInsert payload "httpStartStop" (.obj httpStartStopMap), .default)
      | .otherEv _ => (payload, .default)
    let app := ((aLookup labels "applicationPath").getD "")
    let payload :=
      if app ≠ "" then
        aInsert reshaped.1 "serviceContext" (.obj [("service", .str app)])
      else reshaped.1
    .ok { payload := payload, labels := labels, severity := reshaped.2 }

/-!
## Spec-side refinement definition and concrete inputs
-/

/-- Modelled from the spec's words for the label merge rule: "result =
entry-specific labels overlaid onto a copy of the global labels", i.e.
start from a copy of the global labels and then write the entry labels
over it, so entry labels would win on a key collision.  This definition
exists only to be compared with the source's `merge`. -/
def specMergeEntryWins (globalLabels entryLabels : List (String × String)) :
    List (String × String) :=
  aUpdate (aUpdate [] globalLabels) entryLabels

/-- A concrete CF metadata lookup that succeeds for guid "g". -/
def appLookup1 : String → Option CFApp :=
  fun g => if g = "g" then some ⟨"app1", "sg", "sn", "og", "on"⟩ else none

/-!
## Association-list map laws
-/

theorem aLookup_nil {α : Type} (k : String) :
    aLookup ([] : List (String × α)) k = none := rfl

theorem aLookup_cons {α : Type} (a : String) (b : α) (t : List (String × α))
    (k : String) :
    aLookup ((a, b) :: t) k = if a = k then some b else aLookup t k := rfl

theorem oor_some {α : Type} (v : α) (y : Option α) : oor (some v) y = some v := rfl

theorem oor_none_left {α : Type} (y : Option α) : oor none y = y := rfl

theorem oor_none_right {α : Type} (x : Option α) : oor x none = x := by
  cases x <;> rfl

theorem aErase_cons_pos {α : Type} (a : String) (b : α) (t : List (String × α))
    (k : String) (h : a = k) : aErase ((a, b) :: t) k = aErase t k := by
  simp [aErase, h]

theorem aErase_cons_neg {α : Type} (a : String) (b : α) (t : List (String × α))
    (k : String) (h : ¬a = k) :
    aErase ((a, b) :: t) k = (a, b) :: aErase t k := by
  simp [aErase, h]

theorem aLookup_erase {α : Type} (m : List (String × α)) (k k' : String) :
    aLookup (aErase m k) k' = if k' = k then none else aLookup m k' := by
  induction m with
  | nil => simp [aErase, aLookup]
  | cons p t ih =>
    obtain ⟨a, b⟩ := p
    by_cases hak : a = k
    · rw [aErase_cons_pos a b t k hak, ih, aLookup_cons]
      by_cases hk : k' = k
      · rw [if_pos hk, if_pos hk]
      · rw [if_neg hk, if_neg hk, if_neg (fun h : a = k' => hk (h.symm.trans hak))]
    · rw [aErase_cons_neg a b t k hak, aLookup_cons, aLookup_cons]
      by_cases hak' : a = k'
      · rw [if_pos hak', if_pos hak', if_neg (fun h : k' = k => hak (hak'.trans h))]
      · rw [if_neg hak', if_neg hak', ih]

theorem aLookup_insert {α : Type} (m : List (String × α)) (k : String) (v : α)
    (k' : String) :
    aLookup (aInsert m k v) k' = if k' = k then some v else aLookup m k' := by
  rw [aInsert, aLookup_cons]
  by_cases h : k = k'
  · rw [if_pos h, if_pos h.symm]
  · rw [if_neg h, aLookup_erase, if_neg (fun hh : k' = k => h hh.symm),
      if_neg (fun hh : k' = k => h hh.symm)]

theorem aLookup_insert_self {α : Type} (m : List (String × α)) (k : String)
    (v : α) : aLookup (aInsert m k v) k = some v := by
  rw [aLookup_insert, if_pos rfl]

theorem aLookup_insert_ne {α : Type} (m : List (String × α)) (k : String)
    (v : α) (k' : String) (h : k' ≠ k) :
    aLookup (aInsert m k v) k' = aLookup m k' := by
  rw [aLookup_insert, if_neg h]

theorem aLookup_erase_self {α : Type} (m : List (String × α)) (k : String) :
    aLookup (aErase m k) k = none := by
  rw [aLookup_erase, if_pos rfl]

theorem aLookup_erase_ne {α : Type} (m : List (String × α)) (k k' : String)
    (h : k' ≠ k) : aLookup (aErase m k) k' = aLookup m k' := by
  rw [aLookup_erase, if_neg h]

theorem aLookup_append {α : Type} (xs ys : List (String × α)) (k : String) :
    aLookup (xs ++ ys) k = oor (aLookup xs k) (aLookup ys k) := by
  induction xs with
  | nil => rw [List.nil_append, aLookup_nil, oor_none_left]
  | cons p t ih =>
    obtain ⟨a, b⟩ := p
    rw [List.cons_append, aLookup_cons, aLookup_cons]
    by_cases h : a = k
    · rw [if_pos h, if_pos h, oor_some]
    · rw [if_neg h, if_neg h, ih]

theorem aLookup_update {α : Type} (src : List (String × α)) :
    ∀ (dst : List (String × α)) (k : String),
    aLookup (aUpdate dst src) k = oor (aLookup src.reverse k) (aLookup dst k) := by
  induction src with
  | nil => intro dst k; rw [show aUpdate dst [] = dst from rfl]; rfl
  | cons p t ih =>
    intro dst k
    obtain ⟨a, b⟩ := p
    rw [show aUpdate dst ((a, b) :: t) = aUpdate (aInsert dst a b) t from rfl,
      ih, List.reverse_cons, aLookup_append]
    cases hx : aLookup t.reverse k with
    | some v => rfl
    | none =>
      rw [oor_none_left, oor_none_left, aLookup_insert, aLookup_cons, aLookup_nil]
      by_cases h : k = a
      · rw [if_pos h, if_pos h.symm, oor_some]
      · rw [if_neg h, if_neg (fun hh : a = k => h hh.symm), oor_none_left]

theorem aLookup_none_of_not_mem_keys {α : Type} (m : List (String × α))
    (k : String) (h : k ∉ m.map Prod.fst) : aLookup m k = none := by
  induction m with
  | nil => rfl
  | cons p t ih =>
    obtain ⟨a, b⟩ := p
    simp only [List.map_cons, List.mem_cons] at h
    push_neg at h
    rw [aLookup_cons, if_neg (fun hh : a = k => h.1 hh.symm), ih h.2]

theorem aLookup_reverse_of_nodup {α : Type} (m : List (String × α))
    (h : (m.map Prod.fst).Nodup) (k : String) :
    aLookup m.reverse k = aLookup m k := by
  induction m with
  | nil => rfl
  | cons p t ih =>
    obtain ⟨a, b⟩ := p
    simp only [List.map_cons, List.nodup_cons] at h
    rw [List.reverse_cons, aLookup_append, ih h.2, aLookup_cons]
    by_cases hk : a = k
    · subst hk
      rw [aLookup_none_of_not_mem_keys t a h.1, oor_none_left, if_pos rfl,
        aLookup_cons, if_pos rfl]
    · rw [if_neg hk, aLookup_nil, oor_none_right, aLookup_cons, if_neg hk]

theorem not_mem_keys_erase {α : Type} (m : List (String × α)) (k : String) :
    k ∉ (aErase m k).map Prod.fst := by
  induction m with
  | nil => simp [aErase]
  | cons p t ih =>
    obtain ⟨a, b⟩ := p
    by_cases h : a = k
    · rw [aErase_cons_pos a b t k h]
      exact ih
    · rw [aErase_cons_neg a b t k h]
      simp only [List.map_cons, List.mem_cons]
      push_neg
      exact ⟨fun hh => h hh.symm, ih⟩

theorem keys_erase_sublist {α : Type} (m : List (String × α)) (k : String) :
    ((aErase m k).map Prod.fst).Sublist (m.map Prod.fst) := by
  induction m with
  | nil => simp [aErase]
  | cons p t ih =>
    obtain ⟨a, b⟩ := p
    by_cases h : a = k
    · rw [aErase_cons_pos a b t k h, List.map_cons]
      exact ih.trans (List.sublist_cons_self _ _)
    · rw [aErase_cons_neg a b t k h, List.map_cons, List.map_cons]
      exact ih.cons₂ a

/-!
## Claim theorems: metric reporting (C1, C3, C10)
-/

theorem tsFold_eq_filterMap (g : List (String × String)) (mt : String)
    (i : Interval) (entries : List MapEntry) (acc : List TimeSeries) :
    entries.foldl (fun series e =>
      match e.value with
      | .counter c =>
          series ++ [timeSeriesInt mt i (merge g c.labels) c.value]
      | .otherVal => series) acc
    = acc ++ entries.filterMap (fun e =>
        match e.value with
        | .counter c => some (timeSeriesInt mt i (merge g c.labels) c.value)
        | .otherVal => none) := by
  induction entries generalizing acc with
  | nil => simp
  | cons e t ih =>
    rw [List.foldl_cons, List.filterMap_cons]
    cases hv : e.value with
    | counter c => rw [ih]; simp
    | otherVal => rw [ih]

theorem timeSeries_counterMap (g : List (String × String)) (mt mkey : String)
    (i : Interval) (ks : List String) (entries : List MapEntry) :
    timeSeries g mt i ⟨mkey, .counterMap ks entries⟩
      = (entries.filterMap (fun e =>
          match e.value with
          | .counter c => some (timeSeriesInt mt i (merge g c.labels) c.value)
          | .otherVal => none), []) := by
  show (entries.foldl _ [], []) = _
  rw [tsFold_eq_filterMap]
  simp

theorem aLookup_merge (a b : List (String × String))
    (ha : (a.map Prod.fst).Nodup) (hb : (b.map Prod.fst).Nodup) (k : String) :
    aLookup (merge a b) k = oor (aLookup a k) (aLookup b k) := by
  rw [merge, aLookup_update, aLookup_update, aLookup_nil, oor_none_right,
    aLookup_reverse_of_nodup a ha k, aLookup_reverse_of_nodup b hb k]

/-- C1 counterexample: with global labels containing key "k" bound to "g"
and a CounterMap entry whose counter carries "k" bound to "e", the emitted
point maps "k" to the GLOBAL value "g", whereas the spec's merge rule
(entry labels overlaid onto a copy of the global labels, entry wins)
yields "e".  The claim that entry labels take precedence is false on the
code. -/
theorem c1_label_precedence_cex :
    ((timeSeries [("k", "g")] "t" ⟨0, 1⟩
        ⟨"m", .counterMap ["k"] [⟨"e", .counter ⟨[("k", "e")], 5⟩⟩]⟩).1.map
        (fun p => aLookup p.labels "k")) = [some "g"]
    ∧ aLookup (specMergeEntryWins [("k", "g")] [("k", "e")]) "k" = some "e"
    ∧ (some "g" : Option String) ≠ some "e" := by
  refine ⟨by decide, by decide, by decide⟩

/-- C1 (amended): every point emitted for a CounterMap entry carries the
entry labels overlaid first and the global labels overlaid second, so on
a key collision the GLOBAL labels take precedence: for maps with
duplicate-free keys the resulting lookup is left-biased towards the
global labels. -/
theorem c1_merge_global_wins (g el : List (String × String))
    (hg : (g.map Prod.fst).Nodup) (hel : (el.map Prod.fst).Nodup)
    (mt mkey ekey : String) (i : Interval) (ks : List String) (v : Int) :
    (timeSeries g mt i ⟨mkey, .counterMap ks [⟨ekey, .counter ⟨el, v⟩⟩]⟩).1
      = [timeSeriesInt mt i (merge g el) v]
    ∧ ∀ k, aLookup (merge g el) k = oor (aLookup g k) (aLookup el k) := by
  refine ⟨rfl, fun k => aLookup_merge g el hg hel k⟩

theorem c1_merge_global_wins_witness :
    (timeSeries [("k", "g")] "t" ⟨0, 1⟩
        ⟨"m", .counterMap ["k"] [⟨"e", .counter ⟨[("k", "e")], 5⟩⟩]⟩).1
      = [timeSeriesInt "t" ⟨0, 1⟩ (merge [("k", "g")] [("k", "e")]) 5]
    ∧ ∀ k, aLookup (merge [("k", "g")] [("k", "e")]) k
        = oor (aLookup [("k", "g")] k) (aLookup [("k", "e")] k) :=
  c1_merge_global_wins [("k", "g")] [("k", "e")] (by decide) (by decide)
    "t" "m" "e" ⟨0, 1⟩ ["k"] 5

/-- C10: a CounterMap entry whose value is not a Counter is skipped
silently — the emitted points are exactly the counter entries' points
(non-counter entries are filtered out) and the error-log output is empty,
in contrast with an unsupported top-level snapshot value which produces
an error-log line; `Report` on such a snapshot completes with no error
log. -/
theorem c10_countermap_skips_non_counters (g : List (String × String))
    (pp mt mkey : String) (i : Interval) (ks : List String)
    (entries : List MapEntry) :
    timeSeries g mt i ⟨mkey, .counterMap ks entries⟩
      = (entries.filterMap (fun e =>
          match e.value with
          | .counter c => some (timeSeriesInt mt i (merge g c.labels) c.value)
          | .otherVal => none), [])
    ∧ timeSeries g mt i ⟨mkey, .otherVar⟩ = ([], [errUnknownValue])
    ∧ (Report ⟨pp, g⟩ i [⟨mkey, .counterMap ks entries⟩]).2 = [] := by
  refine ⟨timeSeries_counterMap g mt mkey i ks entries, rfl, ?_⟩
  simp only [Report, List.foldl_cons, List.foldl_nil, reportStep,
    timeSeries_counterMap]
  split <;> rfl

/-- One `reportStep` on a scalar Counter entry appends exactly one point
and flushes exactly when the open request reaches `maxTimeSeries`. -/
theorem reportStep_scalar (cfg : SinkCfg) (i : Interval) (key : String)
    (c : Counter) (batches : List (List TimeSeries)) (req : List TimeSeries)
    (logs : List String) :
    reportStep cfg i (batches, req, logs) ⟨key, .counter c⟩
      = (if req.length + 1 = maxTimeSeries
         then (batches ++
            [req ++ [timeSeriesInt (metricDescriptorType key) i cfg.labels c.value]],
            [], logs)
         else (batches,
            req ++ [timeSeriesInt (metricDescriptorType key) i cfg.labels c.value],
            logs)) := by
  simp [reportStep, timeSeries]

theorem report_scalar_no_flush (cfg : SinkCfg) (i : Interval) (key : String)
    (c : Counter) :
    ∀ (n : Nat) (batches : List (List TimeSeries)) (req : List TimeSeries)
      (logs : List String), req.length + n < maxTimeSeries →
    (List.replicate n (⟨key, .counter c⟩ : ReportEntry)).foldl
        (reportStep cfg i) (batches, req, logs)
      = (batches,
         req ++ List.replicate n
            (timeSeriesInt (metricDescriptorType key) i cfg.labels c.value),
         logs) := by
  intro n
  induction n with
  | zero => intro batches req logs _; simp
  | succ m ih =>
    intro batches req logs h
    rw [show maxTimeSeries = 200 from rfl] at h
    rw [List.replicate_succ, List.foldl_cons, reportStep_scalar,
      if_neg (by rw [show maxTimeSeries = 200 from rfl]; omega),
      ih _ _ _ (by rw [show maxTimeSeries = 200 from rfl]; simp; omega)]
    simp [List.replicate_succ]

theorem report_scalar_flush (cfg : SinkCfg) (i : Interval) (key : String)
    (c : Counter) :
    ∀ (n : Nat) (batches : List (List TimeSeries)) (req : List TimeSeries)
      (logs : List String), req.length + n = maxTimeSeries → 0 < n →
    (List.replicate n (⟨key, .counter c⟩ : ReportEntry)).foldl
        (reportStep cfg i) (batches, req, logs)
      = (batches ++
         [req ++ List.replicate n
            (timeSeriesInt (metricDescriptorType key) i cfg.labels c.value)],
         [], logs) := by
  intro n
  induction n with
  | zero => intro _ _ _ _ h0; exact absurd h0 (by omega)
  | succ m ih =>
    intro batches req logs hlen _
    rw [show maxTimeSeries = 200 from rfl] at hlen
    rw [List.replicate_succ, List.foldl_cons, reportStep_scalar]
    by_cases hm : m = 0
    · subst hm
      rw [if_pos (by rw [show maxTimeSeries = 200 from rfl]; omega)]
      simp
    · rw [if_neg (by rw [show maxTimeSeries = 200 from rfl]; omega),
        ih _ _ _ (by rw [show maxTimeSeries = 200 from rfl]; simp; omega)
          (by omega)]
      simp [List.replicate_succ]

set_option maxRecDepth 4000 in
/-- C3 counterexample: a snapshot consisting of one CounterMap with 201
counter entries produces a single submitted request of 201 points — the
running length jumps from 0 to 201, never equals 200 inside the loop,
and the oversized request is submitted by the final flush.  This refutes
"each submitted time-series request contains at most 200 points". -/
theorem c3_batch_cap_cex :
    ((Report ⟨"projects/p", []⟩ ⟨0, 1⟩
        [⟨"m", .counterMap [] (List.replicate 201 ⟨"e", .counter ⟨[], 1⟩⟩)⟩]).1.map
        List.length) = [201]
    ∧ ¬(201 ≤ maxTimeSeries) := by
  constructor
  · have hts := timeSeries_counterMap ([] : List (String × String))
      (metricDescriptorType "m") "m" ⟨0, 1⟩ []
      (List.replicate 201 ⟨"e", .counter ⟨[], 1⟩⟩)
    have hfm : (List.replicate 201 (⟨"e", .counter ⟨[], 1⟩⟩ : MapEntry)).filterMap
        (fun e => match e.value with
          | .counter c =>
              some (timeSeriesInt (metricDescriptorType "m") ⟨0, 1⟩
                (merge [] c.labels) c.value)
          | .otherVal => none)
        = List.replicate 201
            (timeSeriesInt (metricDescriptorType "m") ⟨0, 1⟩ (merge [] []) 1) := by
      have : ∀ n, (List.replicate n (⟨"e", .counter ⟨[], 1⟩⟩ : MapEntry)).filterMap
          (fun e => match e.value with
            | .counter c =>
                some (timeSeriesInt (metricDescriptorType "m") ⟨0, 1⟩
                  (merge [] c.labels) c.value)
            | .otherVal => none)
          = List.replicate n
              (timeSeriesInt (metricDescriptorType "m") ⟨0, 1⟩ (merge [] []) 1) := by
        intro n
        induction n with
        | zero => rfl
        | succ k ihk =>
          rw [List.replicate_succ, List.replicate_succ, List.filterMap_cons]
          simp only []
          rw [ihk]
      exact this 201
    simp only [Report, List.foldl_cons, List.foldl_nil, reportStep, hts, hfm,
      List.nil_append, List.append_nil, List.length_replicate, maxTimeSeries]
    rw [if_neg (by decide : ¬((201 : Nat) = 200))]
    simp [List.length_replicate]
  · decide

set_option maxRecDepth 4000 in
/-- C3 (amended): a mid-snapshot submission happens only when the open
request's length is exactly 200 after appending all of a snapshot entry's
points, so a single entry contributing more than 200 points yields an
oversized request (see the counterexample); when every entry contributes
exactly one point the 200-cap behaviour holds: 450 scalar Counter entries
are submitted as exactly 3 requests of sizes 200, 200 and 50. -/
theorem c3_scalar_450_batches (cfg : SinkCfg) (i : Interval) (key : String)
    (c : Counter) :
    ((Report cfg i (List.replicate 450 ⟨key, .counter c⟩)).1.map List.length)
      = [200, 200, 50] := by
  have hsplit : List.replicate 450 (⟨key, .counter c⟩ : ReportEntry)
      = List.replicate 200 ⟨key, .counter c⟩ ++
        (List.replicate 200 ⟨key, .counter c⟩ ++
          List.replicate 50 ⟨key, .counter c⟩) := by
    rw [← List.replicate_add, ← List.replicate_add]
  simp only [Report]
  rw [hsplit, List.foldl_append, List.foldl_append,
    report_scalar_flush cfg i key c 200 [] [] [] (by simp [maxTimeSeries]) (by omega),
    report_scalar_flush cfg i key c 200
      ([] ++ [[] ++ List.replicate 200
        (timeSeriesInt (metricDescriptorType key) i cfg.labels c.value)])
      [] [] (by simp [maxTimeSeries]) (by omega),
    report_scalar_no_flush cfg i key c 50
      (([] ++ [[] ++ List.replicate 200
          (timeSeriesInt (metricDescriptorType key) i cfg.labels c.value)]) ++
        [[] ++ List.replicate 200
          (timeSeriesInt (metricDescriptorType key) i cfg.labels c.value)])
      [] [] (by simp [maxTimeSeries])]
  simp [List.length_replicate]

/-!
## Claim theorems: descriptor registration (C6)
-/

theorem initFold_mem_names (cfg : SinkCfg) (reg : List String) :
    ∀ (series : List ReportEntry)
      (acc : List MetricDescriptor × List MetricDescriptor) (x : String),
    x ∈ acc.1.map MetricDescriptor.name →
    x ∈ (series.foldl (initStep cfg reg) acc).1.map MetricDescriptor.name := by
  intro series
  induction series with
  | nil => intro acc x hx; exact hx
  | cons s0 rest ih =>
    intro acc x hx
    rw [List.foldl_cons]
    apply ih
    simp only [initStep]
    split
    · exact hx
    · simp only [List.map_append, List.mem_append]
      exact Or.inl hx

theorem initFold_covers (cfg : SinkCfg) (reg : List String) :
    ∀ (series : List ReportEntry)
      (acc : List MetricDescriptor × List MetricDescriptor),
    (∀ nm, reg.contains nm = true → nm ∈ acc.1.map MetricDescriptor.name) →
    ∀ s ∈ series, metricDescriptorName cfg.projectPath s.key
      ∈ (series.foldl (initStep cfg reg) acc).1.map MetricDescriptor.name := by
  intro series
  induction series with
  | nil => intro acc _ s hs; cases hs
  | cons s0 rest ih =>
    intro acc hreg s hs
    rw [List.foldl_cons]
    have hreg2 : ∀ nm, reg.contains nm = true →
        nm ∈ (initStep cfg reg acc s0).1.map MetricDescriptor.name := by
      intro nm h
      simp only [initStep]
      split
      · exact hreg nm h
      · simp only [List.map_append, List.mem_append]
        exact Or.inl (hreg nm h)
    rcases List.mem_cons.mp hs with hs0 | hrest
    · subst hs0
      apply initFold_mem_names
      simp only [initStep]
      split
      · next hc => exact hreg _ hc
      · simp only [List.map_append, List.mem_append, List.map_cons, List.map_nil,
          List.mem_singleton]
        exact Or.inr trivial
    · exact ih (initStep cfg reg acc s0) hreg2 s hrest

theorem initFold_skips (cfg : SinkCfg) (reg : List String) :
    ∀ (series : List ReportEntry)
      (acc : List MetricDescriptor × List MetricDescriptor),
    (∀ s ∈ series, reg.contains (metricDescriptorName cfg.projectPath s.key) = true) →
    series.foldl (initStep cfg reg) acc = acc := by
  intro series
  induction series with
  | nil => intro acc _; rfl
  | cons s0 rest ih =>
    intro acc hall
    rw [List.foldl_cons,
      show initStep cfg reg acc s0 = acc from by
        simp only [initStep]; rw [if_pos (hall s0 (List.mem_cons_self _ _))]]
    exact ih acc (fun s hs => hall s (List.mem_cons_of_mem _ hs))

/-- C6: descriptor registration is idempotent.  Assuming the metric
client's listing returns every descriptor previously created (this is how
the `existing` state is modelled: `Init` both reads it as the listing and
extends it with its creations), a second `Init` with the same series
issues zero `CreateMetricDescriptor` requests, because every series'
fully-qualified descriptor name is already among the listed names. -/
theorem c6_descriptor_registration_idempotent (cfg : SinkCfg)
    (existing : List MetricDescriptor) (series : List ReportEntry) :
    (Init cfg (Init cfg existing series).1 series).2 = [] := by
  have hreg1 : ∀ nm, (existing.map (fun d => d.name)).contains nm = true →
      nm ∈ existing.map MetricDescriptor.name := by
    intro nm h
    exact List.elem_iff.mp h
  have hcov : ∀ s ∈ series, metricDescriptorName cfg.projectPath s.key
      ∈ (Init cfg existing series).1.map MetricDescriptor.name :=
    fun s hs => initFold_covers cfg _ series (existing, []) hreg1 s hs
  have hall2 : ∀ s ∈ series,
      (((Init cfg existing series).1.map (fun d => d.name)).contains
        (metricDescriptorName cfg.projectPath s.key)) = true :=
    fun s hs => List.elem_iff.mpr (hcov s hs)
  show (series.foldl
      (initStep cfg ((Init cfg existing series).1.map (fun d => d.name)))
      ((Init cfg existing series).1, [])).2 = []
  rw [initFold_skips cfg _ series _ hall2]

/-!
## Claim theorems: app-info repository (C2, C5, C7)
-/

/-- C2: evaluation at a succeeding lookup.  `QueryCfForMetadata` stores
the populated AppInfo in the cache but RETURNS the zero value: the inner
short variable declaration `appInfo := AppInfo{...}` shadows the outer
`var appInfo AppInfo`, so the populated struct never reaches the return
statement.  The claim (and the spec) says the built AppInfo is returned;
the code returns the zero value. -/
theorem c2_query_returns_zero_on_success :
    QueryCfForMetadata appLookup1 5 [] "g"
      = (AppInfo.zero, [("g", buildAppInfo ⟨"app1", "sg", "sn", "og", "on"⟩ 5)])
    ∧ buildAppInfo ⟨"app1", "sg", "sn", "og", "on"⟩ 5 ≠ AppInfo.zero := by
  exact ⟨by decide, by decide⟩

/-- C5 counterexample: with freshness window 0 and a succeeding lookup,
the call DOES modify the cache (the unconditional `air.cache[guid] = appInfo`
inside `QueryCfForMetadata` runs in the disabled-cache regime too),
refuting "the cache mapping is unchanged by every such call". -/
theorem c5_window_zero_cex :
    (GetAppInfo appLookup1 5 0 [] "g").2 ≠ [] := by decide

/-- C5 (amended): with freshness window 0, every `GetAppInfo` call
performs the external lookup (the call is exactly `QueryCfForMetadata`,
never consulting the cache); a failed lookup leaves the cache unchanged,
but a successful lookup still writes the freshly built entry into the
cache. -/
theorem c5_window_zero (lookup : String → Option CFApp) (now : Int)
    (cache : List (String × AppInfo)) (guid : String) :
    GetAppInfo lookup now 0 cache guid = QueryCfForMetadata lookup now cache guid
    ∧ (lookup guid = none → (GetAppInfo lookup now 0 cache guid).2 = cache)
    ∧ (∀ app, lookup guid = some app →
        (GetAppInfo lookup now 0 cache guid).2
          = aInsert cache guid (buildAppInfo app now)) := by
  have h0 : GetAppInfo lookup now 0 cache guid
      = QueryCfForMetadata lookup now cache guid := by
    simp only [GetAppInfo]
    rw [if_neg (show ¬(0 : Int) ≠ 0 from fun h => h rfl)]
  refine ⟨h0, ?_, ?_⟩
  · intro hn
    rw [h0]
    simp only [QueryCfForMetadata, hn]
  · intro app ha
    rw [h0]
    simp only [QueryCfForMetadata, ha]

theorem c5_window_zero_witness :
    (GetAppInfo appLookup1 5 0 [] "g").2
      = aInsert [] "g" (buildAppInfo ⟨"app1", "sg", "sn", "og", "on"⟩ 5) :=
  (c5_window_zero appLookup1 5 [] "g").2.2 ⟨"app1", "sg", "sn", "og", "on"⟩
    (by decide)

/-- C7: with a positive freshness window N, a cache hit younger than N
seconds is returned as-is, with the cache unchanged and no external query
(the result does not depend on the lookup function at all); once the
entry is at least N seconds old, the call degenerates to a fresh
`QueryCfForMetadata`, and when that lookup succeeds the cache entry for
the identifier is replaced by the freshly built AppInfo. -/
theorem c7_positive_window_freshness (lookup : String → Option CFApp)
    (now N : Int) (hN : 0 < N) (cache : List (String × AppInfo))
    (guid : String) :
    (∀ ai, aLookup cache guid = some ai → now - ai.lastQueried < N →
      ∀ lookup2, GetAppInfo lookup2 now N cache guid = (ai, cache))
    ∧ (∀ ai, aLookup cache guid = some ai → N ≤ now - ai.lastQueried →
      GetAppInfo lookup now N cache guid = QueryCfForMetadata lookup now cache guid
      ∧ ∀ app, lookup guid = some app →
        aLookup (GetAppInfo lookup now N cache guid).2 guid
          = some (buildAppInfo app now)) := by
  constructor
  · intro ai hai hfresh lookup2
    simp only [GetAppInfo]
    rw [if_pos (show N ≠ 0 by omega), hai]
    simp only []
    rw [if_pos (show N > 0 by omega), if_pos hfresh]
  · intro ai hai hstale
    have hq : GetAppInfo lookup now N cache guid
        = QueryCfForMetadata lookup now cache guid := by
      simp only [GetAppInfo]
      rw [if_pos (show N ≠ 0 by omega), hai]
      simp only []
      rw [if_pos (show N > 0 by omega), if_neg (show ¬now - ai.lastQueried < N by omega)]
    refine ⟨hq, ?_⟩
    intro app ha
    rw [hq]
    simp only [QueryCfForMetadata, ha]
    exact aLookup_insert_self cache guid (buildAppInfo app now)

theorem c7_positive_window_freshness_witness :
    GetAppInfo appLookup1 3 10 [("g", AppInfo.zero)] "g"
      = (AppInfo.zero, [("g", AppInfo.zero)])
    ∧ aLookup (GetAppInfo appLookup1 12 10 [("g", AppInfo.zero)] "g").2 "g"
        = some (buildAppInfo ⟨"app1", "sg", "sn", "og", "on"⟩ 12) := by
  constructor
  · exact (c7_positive_window_freshness appLookup1 3 10 (by decide)
      [("g", AppInfo.zero)] "g").1 AppInfo.zero (by decide) (by decide) appLookup1
  · exact ((c7_positive_window_freshness appLookup1 12 10 (by decide)
      [("g", AppInfo.zero)] "g").2 AppInfo.zero (by decide) (by decide)).2
      ⟨"app1", "sg", "sn", "og", "on"⟩ (by decide)

/-!
## Claim theorems: log sink (C4, C8, C9)
-/

/-- C4: evaluation at a failing input.  When `structToMap(envelope)`
fails, the Go code logs the error but continues with `payload == nil`,
and the very next write `payload["eventType"] = ...` is an assignment to
an entry of a nil map, which PANICS instead of completing a best-effort
record.  The claim (and the spec's failure policy) says translation
completes without panicking; the code panics. -/
theorem c4_envelope_dump_failure_panics :
    parseEnvelope ⟨none, none, none⟩ "" ⟨.errorEv "boom", 7⟩ []
      = .error "assignment to entry in nil map" := rfl

/-- C9: an Error-variant envelope always translates (whenever the generic
envelope dump succeeds, which for an Error envelope it always does: the
dumped struct holds no non-finite floats) to a record with severity ERROR
whose outer payload maps "message" to the error's message string,
regardless of the message content and of the other codec results. -/
theorem c9_error_envelope (p0 : List (String × JsonVal))
    (sd rp : Option (List (String × JsonVal))) (msg tok : String) (ts : Int)
    (labels : List (String × String)) :
    ∃ pay, parseEnvelope ⟨some p0, sd, rp⟩ tok ⟨.errorEv msg, ts⟩ labels
        = .ok ⟨pay, labels, .error⟩
      ∧ aLookup pay "message" = some (.str msg) := by
  simp only [parseEnvelope]
  refine ⟨_, rfl, ?_⟩
  by_cases hc : ((aLookup labels "applicationPath").getD "") ≠ ""
  · rw [if_pos hc, aLookup_insert_ne _ _ _ _ (by decide), aLookup_insert_self]
  · rw [if_neg hc, aLookup_insert_self]

/-- C8: a LogMessage envelope of type ERR whose raw message parses as a
JSON object with a string field "msg" yields severity ERROR, an outer
payload "message" equal to that string, and a "logMessage" sub-payload
that carries every remaining parsed key (other than the reserved
"message_type" slot) while containing neither "msg" nor "message". -/
theorem c8_logmessage_json_msg (p0 lm js : List (String × JsonVal))
    (m raw tok : String) (ts : Int) (labels : List (String × String))
    (hjs : aLookup js "msg" = some (.str m))
    (hlm : aLookup lm "msg" = none)
    (hnd : (js.map Prod.fst).Nodup) :
    ∃ pay, parseEnvelope ⟨some p0, some lm, some js⟩ tok
        ⟨.logMessage raw .err, ts⟩ labels
        = .ok ⟨pay, labels, .error⟩
      ∧ aLookup pay "message" = some (.str m)
      ∧ ∃ L, aLookup pay "logMessage" = some (.obj L)
        ∧ aLookup L "msg" = none
        ∧ aLookup L "message" = none
        ∧ ∀ k v, k ≠ "msg" → k ≠ "message" → k ≠ "message_type" →
            aLookup js k = some v → aLookup L k = some v := by
  simp only [parseEnvelope, hjs, parseSeverity, MessageType.toStr]
  refine ⟨_, rfl, ?_,
    aErase (aInsert (aUpdate lm (aErase js "msg")) "message_type" (.str "ERR"))
      "message", ?_, ?_, ?_, ?_⟩
  · by_cases hc : ((aLookup labels "applicationPath").getD "") ≠ ""
    · rw [if_pos hc, aLookup_insert_ne _ _ _ _ (by decide),
        aLookup_insert_ne _ _ _ _ (by decide), aLookup_insert_self]
    · rw [if_neg hc, aLookup_insert_ne _ _ _ _ (by decide), aLookup_insert_self]
  · by_cases hc : ((aLookup labels "applicationPath").getD "") ≠ ""
    · rw [if_pos hc, aLookup_insert_ne _ _ _ _ (by decide), aLookup_insert_self]
    · rw [if_neg hc, aLookup_insert_self]
  · rw [aLookup_erase_ne _ _ _ (by decide), aLookup_insert_ne _ _ _ _ (by decide),
      aLookup_update]
    have hrev : ("msg" : String) ∉ ((aErase js "msg").reverse.map Prod.fst) := by
      rw [List.map_reverse]
      simpa using not_mem_keys_erase js "msg"
    rw [aLookup_none_of_not_mem_keys _ _ hrev, oor_none_left, hlm]
  · exact aLookup_erase_self _ _
  · intro k v hk1 hk2 hk3 hv
    rw [aLookup_erase_ne _ _ _ hk2, aLookup_insert_ne _ _ _ _ hk3, aLookup_update]
    have hnd2 : ((aErase js "msg").map Prod.fst).Nodup :=
      List.Nodup.sublist (keys_erase_sublist js "msg") hnd
    rw [aLookup_reverse_of_nodup _ hnd2 k, aLookup_erase_ne _ _ _ hk1, hv, oor_some]

theorem c8_logmessage_json_msg_witness :
    ∃ pay, parseEnvelope ⟨some [], some [("message", .str "rawdump")],
        some [("msg", .str "hi"), ("foo", .str "bar")]⟩ ""
        ⟨.logMessage "ignored" .err, 0⟩ []
        = .ok ⟨pay, [], .error⟩
      ∧ aLookup pay "message" = some (.str "hi")
      ∧ ∃ L, aLookup pay "logMessage" = some (.obj L)
        ∧ aLookup L "msg" = none
        ∧ aLookup L "message" = none
        ∧ ∀ k v, k ≠ "msg" → k ≠ "message" → k ≠ "message_type" →
            aLookup [("msg", JsonVal.str "hi"), ("foo", JsonVal.str "bar")] k
              = some v →
            aLookup L k = some v :=
  c8_logmessage_json_msg [] [("message", .str "rawdump")]
    [("msg", .str "hi"), ("foo", .str "bar")] "hi" "ignored" "" 0 []
    (by rfl) (by rfl) (by simp)

end StackdriverNozzle
